import Mathlib

/-!
Verification of the static blog generator (main.go) against its
specification.  Strings are modelled as lists of characters (the Go code
indexes bytes; the two coincide on the ASCII data handled here).  Machine
dates are modelled as year/month/day triples, since every time value in the
generator is a calendar date at midnight UTC.  File reading and markdown
conversion are modelled by each directory entry carrying the result that
reading plus converting would produce.
-/

/-- Strings as lists of characters. -/
abbrev Str := List Char

/-- Convert a Lean string literal to the character-list model. -/
def s2l (s : String) : Str := s.data

/-- A calendar date, the date-precision content of a Go time.Time value.
Dates compare lexicographically by year, month, day, which agrees with
time.Time.After on midnight-UTC values.  The zero time.Time value is
January 1 of year 1. -/
structure Date where
  year : Int
  month : Nat
  day : Nat
  deriving DecidableEq

/-- Model of t1.After t2 for date-precision values: strict lexicographic
order on year, month, day. -/
def Date.after (a b : Date) : Bool :=
  decide (b.year < a.year ∨ (b.year = a.year ∧
    (b.month < a.month ∨ (b.month = a.month ∧ b.day < a.day))))

/-- The zero value of Go time.Time at date precision. -/
def Date.zero : Date := ⟨1, 1, 1⟩

/-- YAML scalar values as they come out of the front-matter parser into a
map from string keys to interface values. -/
inductive Yaml where
  | bool (b : Bool)
  | str (s : Str)
  | date (d : Date)
  | int (n : Int)
  | null
  deriving DecidableEq

/-- The front-matter map of one content file.  Keys are assumed distinct,
as produced by the YAML parser. -/
abbrev FrontMatter := List (Str × Yaml)

/-- The result of reading one content file and converting its markdown
body: the front-matter map and the rendered HTML fragment. -/
structure FileContent where
  fm : FrontMatter
  html : Str
  deriving DecidableEq

deriving instance DecidableEq for Except

/-- One directory entry of the content directory.  The content field holds
what reading and converting the file would produce; an error value models
an unreadable file or a failing markdown conversion. -/
structure Entry where
  name : Str
  isDir : Bool
  content : Except Unit FileContent
  deriving DecidableEq

/-- The error conditions of the generation pipeline. -/
inductive GenError where
  | readError (filename : Str)
  | dateError (filename : Str) (value : Str)
  | configReadError
  | configParseError
  deriving DecidableEq

/-- Site configuration (site.yml), as in the SiteConfig struct. -/
structure SiteConfig where
  title : Str
  url : Str
  description : Str
  deriving DecidableEq

/-- A normalized post, as in the Post struct. -/
structure Post where
  title : Str
  slug : Str
  date : Date
  description : Str
  content : Str
  url : Str
  deriving DecidableEq

/-- Model of strings.TrimSuffix: drop the suffix when present, otherwise
return the string unchanged. -/
def trimSuffix (s suf : Str) : Str :=
  if suf.isSuffixOf s then s.take (s.length - suf.length) else s

/-- Model of deriveSlug (main.go): trim a trailing ".md"; when the
remaining name is longer than 11 characters and has hyphens at positions
4, 7 and 10, drop its first 11 characters. -/
def deriveSlug (filename : Str) : Str :=
  let name := trimSuffix filename (s2l (".md"))
  if name.length > 11 ∧ name[4]? = some ('-') ∧ name[7]? = some ('-') ∧
      name[10]? = some ('-') then
    name.drop 11
  else
    name

/-- Fetch a front-matter value as a Go string type assertion would: the
string when the key maps to a string, the empty string otherwise. -/
def getStr (fm : FrontMatter) (key : Str) : Str :=
  match fm.lookup key with
  | some (.str s) => s
  | _ => []

/-- The draft check of parsePost: the value under the draft key must exist,
be a literal boolean, and be true. -/
def isDraftMeta (fm : FrontMatter) : Bool :=
  match fm.lookup (s2l ("draft")) with
  | some (.bool b) => b
  | _ => false

/-- Gregorian leap-year rule, as used by the Go time package. -/
def isLeapYear (y : Int) : Bool :=
  (y % 4 == 0 && y % 100 != 0) || y % 400 == 0

/-- Days in a month of the proleptic Gregorian calendar. -/
def daysInMonth (y : Int) (m : Nat) : Nat :=
  if m = 2 then (if isLeapYear y then 29 else 28)
  else if m = 4 ∨ m = 6 ∨ m = 9 ∨ m = 11 then 30
  else 31

/-- Numeric value of a decimal digit character. -/
def digitVal (c : Char) : Nat := c.toNat - Char.toNat ('0')

/-- Decimal reading of a digit string. -/
def strNat (s : Str) : Nat := s.foldl (fun acc c => acc * 10 + digitVal c) 0

/-- Model of Go time.Parse with layout 2006-01-02: exactly ten characters,
four year digits, two month digits and two day digits separated by hyphens,
with the month and day range-checked against the calendar. -/
def parseDate (s : Str) : Option Date :=
  match s with
  | [y1, y2, y3, y4, h1, m1, m2, h2, d1, d2] =>
    if (y1.isDigit && y2.isDigit && y3.isDigit && y4.isDigit &&
        (h1 == '-') && m1.isDigit && m2.isDigit && (h2 == '-') &&
        d1.isDigit && d2.isDigit) then
      let y : Int := Int.ofNat (strNat [y1, y2, y3, y4])
      let m := strNat [m1, m2]
      let d := strNat [d1, d2]
      if 1 ≤ m ∧ m ≤ 12 ∧ 1 ≤ d ∧ d ≤ daysInMonth y m then
        some ⟨y, m, d⟩
      else none
    else none
  | _ => none

/-- The date resolution of parsePost: a string value must parse with the
2006-01-02 layout (otherwise an error naming the file and the value), a
time-typed value is taken as is, anything else leaves the zero date. -/
def lookupDate (filename : Str) (fm : FrontMatter) : Except GenError Date :=
  match fm.lookup (s2l ("date")) with
  | some (.str ds) =>
    match parseDate ds with
    | some d => .ok d
    | none => .error (.dateError filename ds)
  | some (.date d) => .ok d
  | _ => .ok Date.zero

/-- Model of parsePost (main.go).  A read or conversion failure is an
error; a front matter whose draft key holds the boolean true yields none
(skip); otherwise the post is built: title falls back to Untitled, the
date is resolved by lookupDate, and the slug comes from the filename. -/
def parsePost (filename : Str) (content : Except Unit FileContent) :
    Except GenError (Option Post) :=
  match content with
  | .error _ => .error (.readError filename)
  | .ok fc =>
    if isDraftMeta fc.fm then .ok none
    else
      let title0 := getStr fc.fm (s2l ("title"))
      let title := if title0 = [] then s2l ("Untitled") else title0
      let descr := getStr fc.fm (s2l ("description"))
      match lookupDate filename fc.fm with
      | .error e => .error e
      | .ok date =>
        let slug := deriveSlug filename
        .ok (some { title := title, slug := slug, date := date,
                    description := descr, content := fc.html,
                    url := s2l ("/posts/") ++ slug ++ s2l ("/") })

/-- The entry filter of parsePosts: subdirectories and files whose name
does not end in ".md" are skipped. -/
def eligibleEntry (e : Entry) : Bool :=
  !e.isDir && (s2l (".md")).isSuffixOf e.name

/-- Model of parsePosts (main.go): walk the directory entries in order,
skip ineligible ones without reading them, parse the rest, stop at the
first error, and collect the non-draft posts. -/
def parsePosts : List Entry → Except GenError (List Post)
  | [] => .ok []
  | e :: es =>
    if eligibleEntry e then
      match parsePost e.name e.content with
      | .error err => .error err
      | .ok none => parsePosts es
      | .ok (some p) => Except.map (fun ps => p :: ps) (parsePosts es)
    else
      parsePosts es

/-- The comparison under the date-descending sort of runGenerate: a may
precede b when b is not strictly more recent. -/
def postLE (a b : Post) : Bool := !(Date.after b.date a.date)

/-- The date-descending sort of the post collection.  The Go code uses an
unstable sort; any date-descending permutation is admissible, and this
merge sort realizes one. -/
def sortPosts (posts : List Post) : List Post := posts.mergeSort postLE

/-- Date-descending adjacency: the second post is not more recent than the
first. -/
def dateGE (a b : Post) : Prop := Date.after b.date a.date = false

/-- Number of posts on the home page. -/
def postsPerPage : Nat := 5

/-- Number of items in the RSS feed. -/
def postsInFeed : Nat := 20

/-- The recent-posts selection of generateHomePage. -/
def homeRecent (posts : List Post) : List Post :=
  if posts.length > postsPerPage then posts.take postsPerPage else posts

/-- One archive group: a year and its posts. -/
structure YearGroup where
  year : Int
  posts : List Post
  deriving DecidableEq

/-- Descending comparison on years. -/
def intGE (a b : Int) : Bool := decide (b ≤ a)

/-- Model of generateArchivePage grouping: the Go code buckets posts by
year in collection order (so each bucket equals a filter of the collection)
and then sorts the groups by year descending; the bucket keys are distinct,
so the sorted group list is uniquely determined and is realized here by
deduplicating the year list and merge-sorting it. -/
def archiveYears (posts : List Post) : List YearGroup :=
  let ys := ((posts.map (fun p => p.date.year)).dedup).mergeSort intGE
  ys.map (fun y => ⟨y, posts.filter (fun p => decide (p.date.year = y))⟩)

/-- The output path of one per-post page, relative to the output root. -/
def postPagePath (slug : Str) : Str :=
  s2l ("posts/") ++ slug ++ s2l ("/index.html")

/-- Model of generatePostPages: one page per post, at the path determined
by its slug, rendered from that post. -/
def postPages (posts : List Post) : List (Str × Post) :=
  posts.map (fun p => (postPagePath p.slug, p))

/-- One RSS feed item. -/
structure RSSItem where
  title : Str
  link : Str
  description : Str
  pubDate : Str
  guid : Str
  deriving DecidableEq

/-- The RSS channel record. -/
structure RSSChannel where
  title : Str
  link : Str
  description : Str
  lastBuild : Str
  items : List RSSItem
  deriving DecidableEq

/-- The RSS document record. -/
structure RSSFeed where
  version : Str
  channel : RSSChannel
  deriving DecidableEq

/-- Two-digit zero padding, as the 02 verb of Go time formatting. -/
def pad2 (n : Nat) : Str :=
  if n < 10 then ('0') :: s2l (Nat.repr n) else s2l (Nat.repr n)

/-- Four-digit zero padding, as the 2006 verb of Go time formatting. -/
def pad4 (n : Nat) : Str :=
  if n < 10 then s2l ("000") ++ s2l (Nat.repr n)
  else if n < 100 then s2l ("00") ++ s2l (Nat.repr n)
  else if n < 1000 then ('0') :: s2l (Nat.repr n)
  else s2l (Nat.repr n)

/-- Three-letter month names of Go time formatting. -/
def monthName (m : Nat) : Str :=
  match m with
  | 1 => s2l ("Jan") | 2 => s2l ("Feb") | 3 => s2l ("Mar")
  | 4 => s2l ("Apr") | 5 => s2l ("May") | 6 => s2l ("Jun")
  | 7 => s2l ("Jul") | 8 => s2l ("Aug") | 9 => s2l ("Sep")
  | 10 => s2l ("Oct") | 11 => s2l ("Nov") | 12 => s2l ("Dec")
  | _ => []

/-- Three-letter weekday names, indexed from Sunday. -/
def dayName (w : Nat) : Str :=
  match w with
  | 0 => s2l ("Sun") | 1 => s2l ("Mon") | 2 => s2l ("Tue")
  | 3 => s2l ("Wed") | 4 => s2l ("Thu") | 5 => s2l ("Fri")
  | 6 => s2l ("Sat")
  | _ => []

/-- Weekday of a proleptic Gregorian date (0 = Sunday), by the Sakamoto
congruence; agrees with the Go time package on the positive years in use
here. -/
def weekdayOf (dt : Date) : Nat :=
  let t : List Nat := [0, 3, 2, 5, 0, 3, 5, 1, 4, 6, 2, 4]
  let y : Int := if dt.month < 3 then dt.year - 1 else dt.year
  (((y + y / 4 - y / 100 + y / 400 +
     Int.ofNat (t.getD (dt.month - 1) 0) + Int.ofNat dt.day) % 7)).toNat

/-- Model of formatting a midnight-UTC date with the RFC1123Z layout of the
Go time package. -/
def fmtRFC1123Z (dt : Date) : Str :=
  dayName (weekdayOf dt) ++ s2l (", ") ++ pad2 dt.day ++ s2l (" ") ++
  monthName dt.month ++ s2l (" ") ++ pad4 dt.year.toNat ++
  s2l (" 00:00:00 +0000")

/-- The feed item built from one post in generateRSSFeed. -/
def rssItem (site : SiteConfig) (p : Post) : RSSItem :=
  { title := p.title, link := site.url ++ p.url,
    description := p.description, pubDate := fmtRFC1123Z p.date,
    guid := site.url ++ p.url }

/-- The feed selection of generateRSSFeed: the first postsInFeed posts of
the collection, in collection order. -/
def feedPosts (posts : List Post) : List Post :=
  if posts.length > postsInFeed then posts.take postsInFeed else posts

/-- Model of generateRSSFeed: channel metadata from the site config, the
last-build field from the first post of the collection (empty when there
are none), and one item per selected post. -/
def generateRSSFeed (site : SiteConfig) (posts : List Post) : RSSFeed :=
  RSSFeed.mk (s2l ("2.0"))
    (RSSChannel.mk site.title site.url site.description
      (match posts with
       | [] => []
       | p :: _ => fmtRFC1123Z p.date)
      ((feedPosts posts).map (rssItem site)))

/-- XML documents, enough structure for the feed serialization. -/
inductive Xml where
  | text (s : Str)
  | elem (tag : Str) (attrs : List (Str × Str)) (children : List Xml)

/-- Serialization of one feed item by the Go xml encoder: every struct
field becomes a child element, in declaration order. -/
def encodeItem (it : RSSItem) : Xml :=
  .elem (s2l ("item")) []
    [.elem (s2l ("title")) [] [.text it.title],
     .elem (s2l ("link")) [] [.text it.link],
     .elem (s2l ("description")) [] [.text it.description],
     .elem (s2l ("pubDate")) [] [.text it.pubDate],
     .elem (s2l ("guid")) [] [.text it.guid]]

/-- Serialization of the channel by the Go xml encoder.  None of the
fields carries an omitempty flag, so every field is emitted in declaration
order; in particular an empty lastBuild string still yields a
lastBuildDate element with empty content. -/
def encodeChannel (c : RSSChannel) : Xml :=
  .elem (s2l ("channel")) []
    ([.elem (s2l ("title")) [] [.text c.title],
      .elem (s2l ("link")) [] [.text c.link],
      .elem (s2l ("description")) [] [.text c.description],
      .elem (s2l ("lastBuildDate")) [] [.text c.lastBuild]] ++
     c.items.map encodeItem)

/-- Serialization of the whole feed document. -/
def encodeFeed (f : RSSFeed) : Xml :=
  .elem (s2l ("rss")) [(s2l ("version"), f.version)] [encodeChannel f.channel]

/-- The children of an XML element. -/
def xmlChildren : Xml → List Xml
  | .elem _ _ cs => cs
  | .text _ => []

/-- The state of the site.yml configuration source: unreadable, readable
but not valid YAML, or readable with the given parsed field values
(missing keys surface as empty strings). -/
inductive ConfigSrc where
  | unreadable
  | malformed
  | readable (raw : SiteConfig)
  deriving DecidableEq

/-- Model of loadConfig (main.go): an unreadable site.yml is an error, an
unparsable one is an error, and on success the empty title and url fields
are replaced by the defaults. -/
def loadConfig (src : ConfigSrc) : Except GenError SiteConfig :=
  match src with
  | .unreadable => .error .configReadError
  | .malformed => .error .configParseError
  | .readable raw =>
    .ok { title := if raw.title = [] then s2l ("My Blog") else raw.title,
          url := if raw.url = [] then s2l ("https://example.com") else raw.url,
          description := raw.description }

/-- The generated site: the home page context, the archive groups, the
per-post pages and the feed. -/
structure SiteOutputs where
  home : List Post
  archive : List YearGroup
  pages : List (Str × Post)
  feed : RSSFeed
  deriving DecidableEq

/-- Model of runGenerate (main.go), restricted to its data content: load
the configuration, parse the posts, sort them date-descending, then build
every output from the sorted collection.  A configuration or parse error
aborts the run. -/
def runGenerate (cfg : ConfigSrc) (entries : List Entry) :
    Except GenError SiteOutputs :=
  match loadConfig cfg with
  | .error e => .error e
  | .ok site =>
    match parsePosts entries with
    | .error e => .error e
    | .ok posts =>
      let sorted := sortPosts posts
      .ok { home := homeRecent sorted, archive := archiveYears sorted,
            pages := postPages sorted,
            feed := generateRSSFeed site sorted }

/-- A post originates in a directory entry when that entry is an eligible
content file, is not a draft, and parsing it yields exactly that post. -/
def originates (entries : List Entry) (p : Post) : Prop :=
  ∃ e ∈ entries, eligibleEntry e = true ∧
    (∃ fc, e.content = Except.ok fc ∧ isDraftMeta fc.fm = false) ∧
    parsePost e.name e.content = .ok (some p)

/-- The entries counted by the per-post page claim: eligible content files
that are not drafts. -/
def keepEntry (e : Entry) : Bool :=
  eligibleEntry e &&
    (match e.content with
     | .ok fc => !isDraftMeta fc.fm
     | .error _ => false)

/-- Trimming a suffix that was just appended returns the original list. -/
theorem trimSuffix_append (s t : Str) : trimSuffix (s ++ t) t = s := by
  unfold trimSuffix
  rw [if_pos (List.isSuffixOf_iff_suffix.2 (List.suffix_append s t))]
  simp [List.length_append]

/-- C1: a filename built from a four-digit year, two-digit month and
two-digit day separated by hyphens, a non-empty remainder and a ".md"
suffix derives the remainder as its slug; a filename whose stem fails the
prefix-shape test of the code (length over 11 with hyphens at positions 4,
7 and 10 -- the calendar-date-looking shape of the specification) keeps its
whole stem as the slug. -/
theorem deriveSlug_spec :
    (∀ y mo dy rest : Str, y.length = 4 → mo.length = 2 → dy.length = 2 →
      (∀ c ∈ y, c.isDigit = true) → (∀ c ∈ mo, c.isDigit = true) →
      (∀ c ∈ dy, c.isDigit = true) → rest ≠ [] →
      deriveSlug (y ++ ('-') :: (mo ++ ('-') :: (dy ++ ('-') ::
        (rest ++ s2l (".md"))))) = rest) ∧
    (∀ stem : Str,
      ¬(stem.length > 11 ∧ stem[4]? = some ('-') ∧ stem[7]? = some ('-') ∧
        stem[10]? = some ('-')) →
      deriveSlug (stem ++ s2l (".md")) = stem) := by
  constructor
  · intro y mo dy rest hy hmo hdy _ _ _ hrest
    match y, hy, mo, hmo, dy, hdy with
    | [a0, a1, a2, a3], _, [b0, b1], _, [c0, c1], _ =>
      have hr : 0 < rest.length := List.length_pos.mpr hrest
      show deriveSlug ((a0 :: a1 :: a2 :: a3 :: ('-') :: b0 :: b1 :: ('-') ::
        c0 :: c1 :: ('-') :: rest) ++ s2l (".md")) = rest
      simp only [deriveSlug, trimSuffix_append]
      rw [if_pos]
      · rfl
      · refine ⟨?_, ?_, ?_, ?_⟩
        · simp only [List.length_cons]
          omega
        · simp
        · simp
        · simp
  · intro stem hshape
    simp only [deriveSlug, trimSuffix_append]
    exact if_neg hshape

/-- Witness for C1 at concrete filenames. -/
theorem deriveSlug_spec_witness :
    deriveSlug (s2l ("2024") ++ ('-') :: (s2l ("06") ++ ('-') ::
      (s2l ("01") ++ ('-') :: (s2l ("welcome-post") ++ s2l (".md"))))) =
      s2l ("welcome-post") ∧
    deriveSlug (s2l ("hello") ++ s2l (".md")) = s2l ("hello") :=
  ⟨deriveSlug_spec.1 _ _ _ _ rfl rfl rfl (by decide) (by decide) (by decide)
    (by decide),
   deriveSlug_spec.2 _ (by decide)⟩

/-- C9: entries that are subdirectories or whose name does not end in
".md" have no effect on parsePosts at all: the result over the full entry
list equals the result over the eligible entries alone, whatever the
skipped entries contain, so a skipped entry yields no post, is never read,
and raises no error. -/
theorem skip_ineligible_entries (entries : List Entry) :
    parsePosts entries = parsePosts (entries.filter eligibleEntry) := by
  induction entries with
  | nil => rfl
  | cons e es ih =>
    by_cases he : eligibleEntry e = true
    · rw [List.filter_cons_of_pos he]
      simp only [parsePosts, he, if_true, ih]
    · have he2 : eligibleEntry e = false := by simpa using he
      rw [List.filter_cons_of_neg (by simp [he2])]
      simp only [parsePosts, he2, Bool.false_eq_true, if_false, ih]

/-- The draft test holds exactly when the draft key maps to the literal
boolean true. -/
theorem isDraftMeta_iff (fm : FrontMatter) :
    isDraftMeta fm = true ↔ fm.lookup (s2l ("draft")) = some (Yaml.bool true) := by
  unfold isDraftMeta
  cases h : fm.lookup (s2l ("draft")) with
  | none => simp
  | some v => cases v <;> simp

/-- A successful parse can only come from readable content. -/
theorem parsePost_ok_content {n : Str} {c : Except Unit FileContent}
    {r : Option Post} (h : parsePost n c = .ok r) :
    ∃ fc, c = Except.ok fc := by
  cases c with
  | error u => simp [parsePost] at h
  | ok fc => exact ⟨fc, rfl⟩

/-- A skipped file (ok none) must have the draft flag set. -/
theorem parsePost_ok_none_draft {n : Str} {c : Except Unit FileContent}
    {fc : FileContent} (hc : c = Except.ok fc)
    (h : parsePost n c = .ok none) : isDraftMeta fc.fm = true := by
  subst hc
  by_cases hd : isDraftMeta fc.fm
  · exact hd
  · exfalso
    have hd2 : isDraftMeta fc.fm = false := by simpa using hd
    simp only [parsePost, hd2, Bool.false_eq_true, if_false] at h
    cases hdr : lookupDate n fc.fm with
    | error e => rw [hdr] at h; simp at h
    | ok d => rw [hdr] at h; simp at h

/-- A produced post can only come from a non-draft file. -/
theorem parsePost_ok_some_nondraft {n : Str} {c : Except Unit FileContent}
    {fc : FileContent} {p : Post} (hc : c = Except.ok fc)
    (h : parsePost n c = .ok (some p)) : isDraftMeta fc.fm = false := by
  subst hc
  by_cases hd : isDraftMeta fc.fm
  · simp [parsePost, hd] at h
  · simpa using hd

/-- C10: a post is skipped as a draft exactly when its front matter has a
draft key holding the literal boolean true; an absent key, a boolean
false, or a non-boolean value (a string, a number, null) never triggers
the skip, so such a post is included whenever its file parses. -/
theorem draft_skip_iff (filename : Str) (fc : FileContent) :
    parsePost filename (.ok fc) = .ok none ↔
      fc.fm.lookup (s2l ("draft")) = some (Yaml.bool true) := by
  constructor
  · intro h
    exact (isDraftMeta_iff fc.fm).1 (parsePost_ok_none_draft rfl h)
  · intro h
    have hd : isDraftMeta fc.fm = true := (isDraftMeta_iff fc.fm).2 h
    simp [parsePost, hd]

/-- Membership in the recent-posts selection implies membership in the
collection. -/
theorem mem_homeRecent {posts : List Post} {p : Post}
    (h : p ∈ homeRecent posts) : p ∈ posts := by
  unfold homeRecent at h
  split at h
  · exact (List.take_sublist _ _).subset h
  · exact h

/-- The sorted collection has the same members as the parsed one. -/
theorem mem_sortPosts {posts : List Post} {p : Post} :
    p ∈ sortPosts posts ↔ p ∈ posts :=
  (List.mergeSort_perm posts postLE).mem_iff

/-- Every post of a successful parse originates in some eligible,
non-draft entry of the content directory. -/
theorem mem_parsePosts : ∀ (entries : List Entry) (posts : List Post),
    parsePosts entries = .ok posts → ∀ p ∈ posts, originates entries p := by
  intro entries
  induction entries with
  | nil =>
    intro posts h p hp
    simp only [parsePosts] at h
    injection h with h2
    subst h2
    cases hp
  | cons e es ih =>
    intro posts h p hp
    by_cases he : eligibleEntry e = true
    · simp only [parsePosts, he, if_true] at h
      cases hpp : parsePost e.name e.content with
      | error err => rw [hpp] at h; simp at h
      | ok r =>
        cases r with
        | none =>
          rw [hpp] at h
          obtain ⟨e2, he2, hrest⟩ := ih posts h p hp
          exact ⟨e2, List.mem_cons_of_mem _ he2, hrest⟩
        | some q =>
          rw [hpp] at h
          cases hes : parsePosts es with
          | error err => rw [hes] at h; simp [Except.map] at h
          | ok ps =>
            rw [hes] at h
            simp only [Except.map] at h
            injection h with h2
            subst h2
            rcases List.mem_cons.mp hp with hpq | hps
            · subst hpq
              obtain ⟨fc, hfc⟩ := parsePost_ok_content hpp
              exact ⟨e, List.mem_cons_self e es, he,
                ⟨fc, hfc, parsePost_ok_some_nondraft hfc hpp⟩, hpp⟩
            · obtain ⟨e2, he2, hrest⟩ := ih ps hes p hps
              exact ⟨e2, List.mem_cons_of_mem _ he2, hrest⟩
    · have he2 : eligibleEntry e = false := by simpa using he
      simp only [parsePosts, he2, Bool.false_eq_true, if_false] at h
      obtain ⟨e2, he3, hrest⟩ := ih posts h p hp
      exact ⟨e2, List.mem_cons_of_mem _ he3, hrest⟩

/-- A successful parse yields exactly one post per eligible non-draft
entry. -/
theorem parsePosts_length : ∀ (entries : List Entry) (posts : List Post),
    parsePosts entries = .ok posts →
    posts.length = (entries.filter keepEntry).length := by
  intro entries
  induction entries with
  | nil =>
    intro posts h
    injection h with h2
    subst h2
    rfl
  | cons e es ih =>
    intro posts h
    by_cases he : eligibleEntry e = true
    · simp only [parsePosts, he, if_true] at h
      cases hpp : parsePost e.name e.content with
      | error err => rw [hpp] at h; simp at h
      | ok r =>
        cases r with
        | none =>
          rw [hpp] at h
          have hk : keepEntry e = false := by
            obtain ⟨fc, hfc⟩ := parsePost_ok_content hpp
            have hd := parsePost_ok_none_draft hfc hpp
            simp [keepEntry, hfc, hd]
          rw [List.filter_cons_of_neg (by simp [hk])]
          exact ih posts h
        | some q =>
          rw [hpp] at h
          cases hes : parsePosts es with
          | error err => rw [hes] at h; simp [Except.map] at h
          | ok ps =>
            rw [hes] at h
            simp only [Except.map] at h
            injection h with h2
            subst h2
            have hk : keepEntry e = true := by
              obtain ⟨fc, hfc⟩ := parsePost_ok_content hpp
              have hd := parsePost_ok_some_nondraft hfc hpp
              simp [keepEntry, he, hfc, hd]
            rw [List.filter_cons_of_pos hk]
            simp only [List.length_cons, ih ps hes]
    · have he2 : eligibleEntry e = false := by simpa using he
      simp only [parsePosts, he2, Bool.false_eq_true, if_false] at h
      have hk : keepEntry e = false := by simp [keepEntry, he2]
      rw [List.filter_cons_of_neg (by simp [hk])]
      exact ih posts h

/-- C2: every element of every generated output traces back to an
eligible non-draft content file; in particular a file whose front matter
sets draft to true contributes no post to the home page, the archive, the
per-post pages or the feed items. -/
theorem draft_posts_absent (site : SiteConfig) (entries : List Entry)
    (posts : List Post) (h : parsePosts entries = .ok posts) :
    (∀ p ∈ homeRecent (sortPosts posts), originates entries p) ∧
    (∀ g ∈ archiveYears (sortPosts posts), ∀ p ∈ g.posts,
      originates entries p) ∧
    (∀ pr ∈ postPages (sortPosts posts), originates entries pr.2) ∧
    (∀ it ∈ (generateRSSFeed site (sortPosts posts)).channel.items,
      ∃ p, originates entries p ∧ it = rssItem site p) := by
  have hmem : ∀ p ∈ sortPosts posts, originates entries p := by
    intro p hp
    exact mem_parsePosts entries posts h p (mem_sortPosts.mp hp)
  refine ⟨?_, ?_, ?_, ?_⟩
  · intro p hp
    exact hmem p (mem_homeRecent hp)
  · intro g hg p hp
    unfold archiveYears at hg
    obtain ⟨y, hy, rfl⟩ := List.mem_map.mp hg
    exact hmem p (List.mem_of_mem_filter hp)
  · intro pr hpr
    unfold postPages at hpr
    obtain ⟨p, hp, rfl⟩ := List.mem_map.mp hpr
    exact hmem p hp
  · intro it hit
    have hit2 : it ∈ (feedPosts (sortPosts posts)).map (rssItem site) := hit
    obtain ⟨p, hp, rfl⟩ := List.mem_map.mp hit2
    refine ⟨p, ?_, rfl⟩
    have hp2 : p ∈ sortPosts posts := by
      unfold feedPosts at hp
      split at hp
      · exact (List.take_sublist _ _).subset hp
      · exact hp
    exact hmem p hp2

/-- A draft content file, used by the concrete witnesses. -/
def entryDraftSample : Entry :=
  ⟨s2l ("2024-01-01-secret.md"), false,
   .ok ⟨[(s2l ("draft"), .bool true)], s2l ("<p>secret</p>")⟩⟩

/-- A regular content file, used by the concrete witnesses. -/
def entryPostSample : Entry :=
  ⟨s2l ("2024-02-02-hello.md"), false,
   .ok ⟨[(s2l ("title"), .str (s2l ("Hi"))),
         (s2l ("date"), .str (s2l ("2024-02-02")))], s2l ("<p>hi</p>")⟩⟩

/-- The post produced from the regular sample file. -/
def postSample : Post :=
  ⟨s2l ("Hi"), s2l ("hello"), ⟨2024, 2, 2⟩, [], s2l ("<p>hi</p>"),
   s2l ("/posts/hello/")⟩

/-- A sample site configuration, used by the concrete witnesses. -/
def siteSample : SiteConfig :=
  ⟨s2l ("My Blog"), s2l ("https://example.com"), s2l ("A blog")⟩

/-- Witness for C2: a concrete directory with one draft and one regular
file parses to exactly the regular post, and every output element
originates in a non-draft file. -/
theorem draft_posts_absent_witness :
    parsePosts [entryDraftSample, entryPostSample] = .ok [postSample] ∧
    ((∀ p ∈ homeRecent (sortPosts [postSample]),
        originates [entryDraftSample, entryPostSample] p) ∧
     (∀ g ∈ archiveYears (sortPosts [postSample]), ∀ p ∈ g.posts,
        originates [entryDraftSample, entryPostSample] p) ∧
     (∀ pr ∈ postPages (sortPosts [postSample]),
        originates [entryDraftSample, entryPostSample] pr.2) ∧
     (∀ it ∈ (generateRSSFeed siteSample (sortPosts [postSample])).channel.items,
        ∃ p, originates [entryDraftSample, entryPostSample] p ∧
          it = rssItem siteSample p)) :=
  ⟨by decide,
   draft_posts_absent siteSample [entryDraftSample, entryPostSample]
     [postSample] (by decide)⟩

/-- The per-post page path is injective in the slug. -/
theorem postPagePath_injective : Function.Injective postPagePath := by
  intro a b hab
  unfold postPagePath at hab
  exact List.append_cancel_left (List.append_cancel_right hab)

/-- C7: when every post slug is distinct (the slug-uniqueness invariant of
the specification; collisions are a content-authoring error), the number
of distinct per-post output paths equals the number of eligible non-draft
content files. -/
theorem post_pages_count (entries : List Entry) (posts : List Post)
    (h : parsePosts entries = .ok posts)
    (hnd : (posts.map Post.slug).Nodup) :
    (((postPages (sortPosts posts)).map Prod.fst).dedup).length =
      (entries.filter keepEntry).length := by
  have hslugs : ((sortPosts posts).map Post.slug).Nodup :=
    ((List.mergeSort_perm posts postLE).map Post.slug).nodup_iff.mpr hnd
  have hpaths : ((postPages (sortPosts posts)).map Prod.fst) =
      ((sortPosts posts).map Post.slug).map postPagePath := by
    simp [postPages, List.map_map, Function.comp]
  have hnodup : ((postPages (sortPosts posts)).map Prod.fst).Nodup := by
    rw [hpaths]
    exact hslugs.map postPagePath_injective
  rw [List.dedup_eq_self.mpr hnodup, hpaths]
  simp only [List.length_map]
  unfold sortPosts
  rw [(List.mergeSort_perm posts postLE).length_eq]
  exact parsePosts_length entries posts h

/-- Witness for C7 at the concrete sample directory: one draft and one
regular file yield exactly one distinct per-post page path. -/
theorem post_pages_count_witness :
    ([postSample].map Post.slug).Nodup ∧
    (((postPages (sortPosts [postSample])).map Prod.fst).dedup).length =
      ([entryDraftSample, entryPostSample].filter keepEntry).length :=
  ⟨by decide,
   post_pages_count [entryDraftSample, entryPostSample] [postSample]
     (by decide) (by decide)⟩

/-- A minimal post carrying only a date, used by concrete witnesses. -/
def postAt (y : Int) (m dd : Nat) : Post := ⟨[], [], ⟨y, m, dd⟩, [], [], []⟩

instance (a b : Post) : Decidable (dateGE a b) := by
  unfold dateGE
  infer_instance

/-- C3: on a date-descending collection, the home page context is the
first five posts: it has min(5, n) entries, they are a prefix of the
sorted collection (hence date-descending, most recent first), and every
selected entry is at least as recent as every unselected post. -/
theorem home_recent_spec (posts : List Post)
    (hs : List.Pairwise dateGE posts) :
    (homeRecent posts).length = min postsPerPage posts.length ∧
    homeRecent posts = posts.take postsPerPage ∧
    List.Pairwise dateGE (homeRecent posts) ∧
    (∀ p ∈ homeRecent posts, ∀ q ∈ posts.drop postsPerPage,
      Date.after q.date p.date = false) := by
  have htake : homeRecent posts = posts.take postsPerPage := by
    unfold homeRecent
    split
    · rfl
    · rename_i hle
      rw [List.take_of_length_le (by omega)]
  have hs2 : List.Pairwise dateGE
      (posts.take postsPerPage ++ posts.drop postsPerPage) := by
    rw [List.take_append_drop]
    exact hs
  refine ⟨?_, htake, ?_, ?_⟩
  · rw [htake]
    simp
  · exact List.Pairwise.sublist (htake ▸ List.take_sublist postsPerPage posts)
      hs
  · intro p hp q hq
    rw [htake] at hp
    exact (List.pairwise_append.mp hs2).2.2 p hp q hq

/-- Witness for C3 at six concrete date-descending posts: the home page
keeps min(5, 6) = 5 of them. -/
theorem home_recent_spec_witness :
    List.Pairwise dateGE
      [postAt 2024 6 1, postAt 2024 5 1, postAt 2024 4 1,
       postAt 2024 3 1, postAt 2024 2 1, postAt 2024 1 1] ∧
    (homeRecent
      [postAt 2024 6 1, postAt 2024 5 1, postAt 2024 4 1,
       postAt 2024 3 1, postAt 2024 2 1, postAt 2024 1 1]).length =
      min postsPerPage
        ([postAt 2024 6 1, postAt 2024 5 1, postAt 2024 4 1,
          postAt 2024 3 1, postAt 2024 2 1, postAt 2024 1 1]).length :=
  ⟨by decide,
   (home_recent_spec
     [postAt 2024 6 1, postAt 2024 5 1, postAt 2024 4 1,
      postAt 2024 3 1, postAt 2024 2 1, postAt 2024 1 1] (by decide)).1⟩

/-- C4: the feed items are exactly the per-post items of the first twenty
posts of the collection, in collection order: a mapped prefix of the
sorted collection, never re-sorted, of size min(20, n). -/
theorem feed_items_spec (site : SiteConfig) (posts : List Post) :
    (generateRSSFeed site posts).channel.items =
      (posts.take postsInFeed).map (rssItem site) ∧
    ((generateRSSFeed site posts).channel.items).length =
      min postsInFeed posts.length := by
  have hfp : feedPosts posts = posts.take postsInFeed := by
    unfold feedPosts
    split
    · rfl
    · rename_i hle
      rw [List.take_of_length_le (by omega)]
  have hitems : (generateRSSFeed site posts).channel.items =
      (feedPosts posts).map (rssItem site) := rfl
  constructor
  · rw [hitems, hfp]
  · rw [hitems, hfp]
    simp

/-- Transitivity of the descending year comparison. -/
theorem intGE_trans : ∀ a b c : Int,
    intGE a b = true → intGE b c = true → intGE a c = true := by
  intro a b c h1 h2
  simp only [intGE, decide_eq_true_eq] at *
  omega

/-- Totality of the descending year comparison. -/
theorem intGE_total : ∀ a b : Int, (intGE a b || intGE b a) = true := by
  intro a b
  simp only [intGE, Bool.or_eq_true, decide_eq_true_eq]
  omega

/-- C5: the archive year groups partition the collection: each group
holds exactly the posts of its calendar year in collection order (a
sublist, so on a date-descending collection each group is also
date-descending), the group years are distinct and strictly descending,
and every post of the collection lies in exactly one group. -/
theorem archive_years_spec (posts : List Post)
    (hs : List.Pairwise dateGE posts) :
    (∀ g ∈ archiveYears posts,
      g.posts = posts.filter (fun p => decide (p.date.year = g.year))) ∧
    ((archiveYears posts).map YearGroup.year).Nodup ∧
    List.Pairwise (fun g1 g2 => g2.year < g1.year) (archiveYears posts) ∧
    (∀ p ∈ posts,
      (archiveYears posts).countP (fun g => decide (p ∈ g.posts)) = 1) ∧
    (∀ g ∈ archiveYears posts, g.posts.Sublist posts ∧
      List.Pairwise dateGE g.posts) := by
  have harch : archiveYears posts =
      (((posts.map (fun p => p.date.year)).dedup).mergeSort intGE).map
        (fun y => ⟨y, posts.filter (fun p => decide (p.date.year = y))⟩) := rfl
  have hysnd : (((posts.map (fun p => p.date.year)).dedup).mergeSort intGE).Nodup :=
    ((List.mergeSort_perm _ intGE).nodup_iff).mpr (List.nodup_dedup _)
  have hyssorted : List.Pairwise (fun a b => intGE a b = true)
      (((posts.map (fun p => p.date.year)).dedup).mergeSort intGE) :=
    List.sorted_mergeSort intGE_trans intGE_total _
  refine ⟨?_, ?_, ?_, ?_, ?_⟩
  · intro g hg
    rw [harch] at hg
    obtain ⟨y, hy, rfl⟩ := List.mem_map.mp hg
    rfl
  · rw [harch, List.map_map]
    have hid : (YearGroup.year ∘ fun y =>
        (⟨y, posts.filter (fun p => decide (p.date.year = y))⟩ : YearGroup)) =
        fun y => y := by
      funext y
      rfl
    rw [hid]
    simpa using hysnd
  · rw [harch, List.pairwise_map]
    refine List.Pairwise.imp ?_ (hyssorted.and hysnd)
    intro a b hab
    have h1 : b ≤ a := by simpa [intGE] using hab.1
    have h2 : a ≠ b := hab.2
    show b < a
    omega
  · intro p hp
    rw [harch, List.countP_map]
    have hstep : ∀ y ∈ ((posts.map (fun p => p.date.year)).dedup).mergeSort intGE,
        ((fun g => decide (p ∈ g.posts)) ∘
          (fun y => (⟨y, posts.filter (fun p => decide (p.date.year = y))⟩ :
            YearGroup))) y = true ↔ (y == p.date.year) = true := by
      intro y hy
      constructor
      · intro h
        have h2 : p ∈ posts.filter (fun q => decide (q.date.year = y)) := by
          simpa using h
        have h3 : p.date.year = y := by
          simpa using (List.mem_filter.mp h2).2
        simpa using h3.symm
      · intro h
        have h4 : y = p.date.year := by simpa using h
        have h5 : p ∈ posts.filter (fun q => decide (q.date.year = y)) :=
          List.mem_filter.mpr ⟨hp, by simp [h4]⟩
        simpa using h5
    rw [List.countP_congr hstep, ← List.count_eq_countP]
    exact List.count_eq_one_of_mem hysnd
      ((List.mergeSort_perm _ intGE).mem_iff.mpr
        (List.mem_dedup.mpr (List.mem_map_of_mem _ hp)))
  · intro g hg
    rw [harch] at hg
    obtain ⟨y, hy, rfl⟩ := List.mem_map.mp hg
    exact ⟨List.filter_sublist posts,
      List.Pairwise.sublist (List.filter_sublist posts) hs⟩

/-- Witness for C5 at the three posts of the specification example
(2024-06-01, 2024-01-01, 2023-12-01): the group years are distinct. -/
theorem archive_years_spec_witness :
    List.Pairwise dateGE
      [postAt 2024 6 1, postAt 2024 1 1, postAt 2023 12 1] ∧
    ((archiveYears
      [postAt 2024 6 1, postAt 2024 1 1, postAt 2023 12 1]).map
        YearGroup.year).Nodup :=
  ⟨by decide,
   (archive_years_spec [postAt 2024 6 1, postAt 2024 1 1, postAt 2023 12 1]
     (by decide)).2.1⟩

/-- C6 counterexample: when the configuration source cannot be read, the
run does not proceed on the default values; it aborts with a read error. -/
theorem config_unreadable_aborts :
    runGenerate ConfigSrc.unreadable [] = .error GenError.configReadError :=
  rfl

/-- C6 amended: an unreadable configuration source aborts the whole run
with a read error (whatever the content directory holds), while the
defaults My Blog and https://example.com apply only to the title and url
keys that are absent (empty) in a successfully read configuration file. -/
theorem config_defaults_spec (raw : SiteConfig) (entries : List Entry) :
    runGenerate ConfigSrc.unreadable entries =
      .error GenError.configReadError ∧
    loadConfig (ConfigSrc.readable raw) =
      .ok ⟨if raw.title = [] then s2l ("My Blog") else raw.title,
           if raw.url = [] then s2l ("https://example.com") else raw.url,
           raw.description⟩ :=
  ⟨rfl, rfl⟩

/-- A date is never strictly after itself. -/
theorem date_after_irrefl (d : Date) : Date.after d d = false := by
  simp [Date.after]

/-- C8 counterexample: with zero posts the serialized channel still
contains a lastBuildDate element (with empty content); the element is not
absent, because the field carries no omitempty flag. -/
theorem feed_lastbuild_present_when_empty :
    Xml.elem (s2l ("lastBuildDate")) [] [Xml.text []] ∈
      xmlChildren (encodeChannel (generateRSSFeed siteSample []).channel) :=
  .tail _ (.tail _ (.tail _ (.head _)))

/-- C8 amended: on a date-descending collection with at least one post,
the channel last-build field is the first (most recent) post date in the
RFC1123Z layout; with zero posts the field is the empty string and the
serialized channel still contains an empty lastBuildDate element rather
than omitting it. -/
theorem feed_lastbuild_spec (site : SiteConfig) (posts : List Post)
    (hs : List.Pairwise dateGE posts) :
    (∀ p rest2, posts = p :: rest2 →
      (generateRSSFeed site posts).channel.lastBuild = fmtRFC1123Z p.date ∧
      ∀ q ∈ posts, Date.after q.date p.date = false) ∧
    (posts = [] →
      (generateRSSFeed site posts).channel.lastBuild = [] ∧
      Xml.elem (s2l ("lastBuildDate")) [] [Xml.text []] ∈
        xmlChildren (encodeChannel (generateRSSFeed site posts).channel)) := by
  constructor
  · intro p rest2 hpr
    subst hpr
    refine ⟨rfl, ?_⟩
    intro q hq
    rcases List.mem_cons.mp hq with h1 | h2
    · subst h1
      exact date_after_irrefl _
    · exact (List.pairwise_cons.mp hs).1 q h2
  · intro hempty
    subst hempty
    exact ⟨rfl, .tail _ (.tail _ (.tail _ (.head _)))⟩

/-- Witness for C8 at two concrete date-descending posts: the last-build
field is the formatted date of the most recent one. -/
theorem feed_lastbuild_spec_witness :
    List.Pairwise dateGE [postAt 2024 6 1, postAt 2024 1 1] ∧
    (generateRSSFeed siteSample
      [postAt 2024 6 1, postAt 2024 1 1]).channel.lastBuild =
      fmtRFC1123Z ⟨2024, 6, 1⟩ :=
  ⟨by decide,
   ((feed_lastbuild_spec siteSample [postAt 2024 6 1, postAt 2024 1 1]
     (by decide)).1 _ _ rfl).1⟩
